import Mathlib

/-!
Verification of the session/sandbox orchestration core of a code-execution
gateway (`main.py`).  The Python `KernelManager` and its helpers are embedded
shallowly: Python dicts become association lists, the Docker client becomes an
abstract executor oracle supplying the outcome of each external call, and every
method becomes a pure Lean function threading the manager state explicitly.
-/

namespace Spec2Proof

/-! ## Python dict model

`KernelManager` keeps four dicts (`active_kernels`, `nanoid_to_session`,
`session_to_nanoid`, `file_id_map`).  A dict is modelled as an association
list in insertion order; `dget` is `d.get(k)` / `k in d`, `dset` is
`d[k] = v` (update in place, else append), `dpop` is `d.pop(k, None)`'s
state effect (dict keys are unique, so removal is a filter). -/

def dget {α : Type} : List (String × α) → String → Option α
  | [], _ => none
  | p :: ps, k => if p.1 = k then some p.2 else dget ps k

def dset {α : Type} : List (String × α) → String → α → List (String × α)
  | [], k, v => [(k, v)]
  | p :: ps, k, v => if p.1 = k then (k, v) :: ps else p :: dset ps k v

def dpop {α : Type} (d : List (String × α)) (k : String) : List (String × α) :=
  d.filter (fun p => !(p.1 = k : Bool))

/-- Keys of a dict, used to state the dict well-formedness (unique keys). -/
def dkeys {α : Type} (d : List (String × α)) : List String := d.map Prod.fst

theorem dget_dset_self {α : Type} (d : List (String × α)) (k : String) (v : α) :
    dget (dset d k v) k = some v := by
  induction d with
  | nil => simp [dget, dset]
  | cons p ps ih =>
    by_cases h : p.1 = k
    · simp [dget, dset, h]
    · simp [dget, dset, h, ih]

theorem dget_dset_ne {α : Type} (d : List (String × α)) (k k' : String) (v : α)
    (h : k' ≠ k) : dget (dset d k v) k' = dget d k' := by
  have hk : k ≠ k' := Ne.symm h
  induction d with
  | nil => simp [dget, dset, hk]
  | cons p ps ih =>
    by_cases hp : p.1 = k
    · subst hp
      simp [dget, dset, hk]
    · by_cases hp' : p.1 = k' <;> simp [dget, dset, hp, hp', ih, h]

theorem dget_dpop_self {α : Type} (d : List (String × α)) (k : String) :
    dget (dpop d k) k = none := by
  induction d with
  | nil => simp [dget, dpop]
  | cons p ps ih =>
    by_cases h : p.1 = k
    · simpa [dpop, List.filter_cons, h] using ih
    · simpa [dpop, List.filter_cons, dget, h] using ih

theorem dget_dpop_ne {α : Type} (d : List (String × α)) (k k' : String)
    (h : k' ≠ k) : dget (dpop d k) k' = dget d k' := by
  induction d with
  | nil => simp [dget, dpop]
  | cons p ps ih =>
    by_cases hp : p.1 = k
    · have hp' : p.1 ≠ k' := by
        intro hh; exact h (hh ▸ hp)
      simpa [dpop, List.filter_cons, dget, hp, hp', h, Ne.symm h] using ih
    · by_cases hp' : p.1 = k'
      · simp [dpop, List.filter_cons, dget, hp, hp', h]
      · simpa [dpop, List.filter_cons, dget, hp, hp'] using ih

theorem dset_length_le {α : Type} (d : List (String × α)) (k : String) (v : α) :
    (dset d k v).length ≤ d.length + 1 := by
  induction d with
  | nil => simp [dset]
  | cons p ps ih =>
    by_cases h : p.1 = k
    · simp [dset, h]
    · simp only [dset, h, if_false, List.length_cons]
      omega

theorem dpop_length_le {α : Type} (d : List (String × α)) (k : String) :
    (dpop d k).length ≤ d.length := List.length_filter_le _ d

/-! ## Filename sanitization

`os.path.basename` on a POSIX system returns the substring after the last
path separator: `p[p.rfind(sep)+1:]`. -/

def basename (s : String) : String :=
  ⟨(s.data.reverse.takeWhile (fun c => !(c = '/' : Bool))).reverse⟩

theorem basename_no_separator (s : String) : '/' ∉ (basename s).data := by
  intro h
  simp only [basename, List.mem_reverse] at h
  have := List.mem_takeWhile_imp h
  simp at this

/-! ## Python AST model and `wrap_code`

`wrap_code` parses the submitted code with `ast.parse`; if the final
top-level statement is a bare expression (`ast.Expr`), it is replaced by
`__last_res__ = <expr>` and a trailing
`if __last_res__ is not None: print(repr(__last_res__))` is appended, after
which the tree is unparsed.  Any exception (syntax error) returns the code
unchanged.  The parser and unparser are the scripting language's own and are
passed in abstractly. -/

inductive Ctx
  | load
  | store
deriving DecidableEq, Repr

inductive CmpOp
  | isNot
  | otherOp (tag : Nat)
deriving DecidableEq, Repr

inductive PyConst
  | noneConst
  | otherConst (tag : Nat)
deriving DecidableEq, Repr

inductive PyExpr
  | name (id : String) (ctx : Ctx)
  | const (v : PyConst)
  | call (f : PyExpr) (args : List PyExpr)
  | compare (left : PyExpr) (ops : List CmpOp) (comparators : List PyExpr)
  | otherExpr (tag : Nat)
deriving Repr

inductive PyStmt
  | exprStmt (value : PyExpr)
  | assign (targets : List PyExpr) (value : PyExpr)
  | ifStmt (test : PyExpr) (body orelse : List PyStmt)
  | otherStmt (tag : Nat)
deriving Repr

/-- Embedding of the constructed `ast.Assign` node:
`__last_res__ = <last_node.value>`. -/
def assign_node (v : PyExpr) : PyStmt :=
  .assign [.name "__last_res__" .store] v

/-- Embedding of the constructed `ast.If` node:
`if __last_res__ is not None: print(repr(__last_res__))`. -/
def if_print_node : PyStmt :=
  .ifStmt
    (.compare (.name "__last_res__" .load) [.isNot] [.const .noneConst])
    [.exprStmt (.call (.name "print" .load)
      [.call (.name "repr" .load) [.name "__last_res__" .load]])]
    []

def wrap_code (parse : String → Option (List PyStmt))
    (unparse : List PyStmt → String) (code : String) : String :=
  match parse code with
  | none => code
  | some body =>
    match body.getLast? with
    | none => code
    | some last =>
      match last with
      | .exprStmt v => unparse (body.dropLast ++ [assign_node v, if_print_node])
      | _ => code

/-! ## KernelManager state

`active_kernels` maps a session id to `{container, last_accessed}`; the three
identity-mapping dicts mirror `nanoid_to_session`, `session_to_nanoid` and
`file_id_map`.  Sandbox handles are abstract. -/

abbrev Handle := Nat

structure Entry where
  container : Handle
  last_accessed : Int
deriving DecidableEq, Repr

structure KMState where
  active_kernels : List (String × Entry)
  nanoid_to_session : List (String × String)
  session_to_nanoid : List (String × String)
  file_id_map : List (String × List (String × String))
deriving DecidableEq, Repr

def KMState.empty : KMState := ⟨[], [], [], []⟩

def exceptDecEq {ε α : Type} [DecidableEq ε] [DecidableEq α] :
    (a b : Except ε α) → Decidable (a = b)
  | .ok a, .ok b =>
    if h : a = b then .isTrue (by rw [h])
    else .isFalse (by intro hh; cases hh; exact h rfl)
  | .ok _, .error _ => .isFalse (by intro hh; cases hh)
  | .error _, .ok _ => .isFalse (by intro hh; cases hh)
  | .error e, .error f =>
    if h : e = f then .isTrue (by rw [h])
    else .isFalse (by intro hh; cases hh; exact h rfl)

instance {ε α : Type} [DecidableEq ε] [DecidableEq α] : DecidableEq (Except ε α) :=
  exceptDecEq

/-- Status carried by an `HTTPException` raised by the manager. -/
inductive HErr
  | capacity
  | startFailure
  | internalError
  | badRequest
  | notFoundFile
deriving DecidableEq, Repr

/-- Outcome of `container.reload()` as reported by the executor. -/
inductive ReloadRes
  | notFound
  | ok (running : Bool)
  | err
deriving DecidableEq, Repr

/-- Executor responses consumed by one `get_or_create_container` call. -/
structure GocOracle where
  reload : ReloadRes
  startFails : Bool
  createRes : Except Unit Handle

structure GocResult where
  result : Except HErr Handle
  state : KMState
  reloads : Nat
  starts : Nat
  creates : Nat
deriving DecidableEq, Repr

/-- Embedding of `self.active_kernels[session_id]["last_accessed"] = now`. -/
def touch : List (String × Entry) → String → Int → List (String × Entry)
  | [], _, _ => []
  | p :: ps, k, now =>
    if p.1 = k then (k, ⟨p.2.container, now⟩) :: ps else p :: touch ps k now

def start_new_container_unlocked (maxSessions : Nat) (st : KMState)
    (session_id : String) (now : Int) (createRes : Except Unit Handle) : GocResult :=
  if maxSessions ≤ st.active_kernels.length then
    ⟨.error .capacity, st, 0, 0, 0⟩
  else
    match createRes with
    | .error _ => ⟨.error .startFailure, st, 0, 0, 1⟩
    | .ok h =>
      ⟨.ok h,
        { st with active_kernels := dset st.active_kernels session_id ⟨h, now⟩ },
        0, 0, 1⟩

def get_or_create_container (maxSessions : Nat) (st : KMState) (session_id : String)
    (force_refresh : Bool) (now : Int) (o : GocOracle) : GocResult :=
  match dget st.active_kernels session_id with
  | some e =>
    if force_refresh = false then
      ⟨.ok e.container,
        { st with active_kernels := touch st.active_kernels session_id now }, 0, 0, 0⟩
    else
      match o.reload with
      | .notFound =>
        let st' := { st with active_kernels := dpop st.active_kernels session_id }
        let r := start_new_container_unlocked maxSessions st' session_id now o.createRes
        { r with reloads := r.reloads + 1 }
      | .err =>
        let st' := { st with active_kernels := dpop st.active_kernels session_id }
        let r := start_new_container_unlocked maxSessions st' session_id now o.createRes
        { r with reloads := r.reloads + 1 }
      | .ok running =>
        if running then
          ⟨.ok e.container,
            { st with active_kernels := touch st.active_kernels session_id now }, 1, 0, 0⟩
        else if o.startFails then
          let st' := { st with active_kernels := dpop st.active_kernels session_id }
          let r := start_new_container_unlocked maxSessions st' session_id now o.createRes
          { r with reloads := r.reloads + 1, starts := r.starts + 1 }
        else
          ⟨.ok e.container,
            { st with active_kernels := touch st.active_kernels session_id now }, 1, 1, 0⟩
  | none => start_new_container_unlocked maxSessions st session_id now o.createRes

/-- Embedding of `recover_containers`: every discovered environment carrying the
ownership label is adopted when its `session_id` label is non-empty and not yet
tracked; `found` is the executor's answer to the labelled `list` query. -/
def recover_containers (st : KMState) (found : List (Option String × Handle))
    (now : Int) : KMState :=
  found.foldl
    (fun s c =>
      match c.1 with
      | some sid =>
        if sid ≠ "" ∧ dget s.active_kernels sid = none then
          { s with active_kernels := dset s.active_kernels sid ⟨c.2, now⟩ }
        else s
      | none => s)
    st

/-! ## Idle reaper -/

/-- Observable interactions of one reaped session: the lock-protected
bookkeeping removal, then the `container.stop` call (swallowed on failure). -/
inductive CleanupEvent
  | bookkeepingRemoved (session_id : String)
  | stopCalled (session_id : String) (failed : Bool)
deriving DecidableEq, Repr

/-- TTL test from `cleanup_sessions`: `now - data["last_accessed"] > RCE_SESSION_TTL`. -/
def expired (ttl now : Int) (e : Entry) : Bool := decide (now - e.last_accessed > ttl)

/-- Body of the per-session loop in `cleanup_sessions`: pop the identity
mappings, pop the Registry entry, then stop the container if one was tracked;
a stop failure is caught by the per-session handler and changes nothing.
The `if nanoid_session:` guard is string truthiness, so a popped empty-string
nanoid skips the `nanoid_to_session`/`file_id_map` pops. -/
def cleanup_one (stopFails : String → Bool) (s : KMState) (sid : String) :
    KMState × List CleanupEvent :=
  let nanoidOpt := dget s.session_to_nanoid sid
  let s1 := { s with session_to_nanoid := dpop s.session_to_nanoid sid }
  let s2 :=
    match nanoidOpt with
    | some n =>
      if n = "" then s1
      else
        { s1 with
            nanoid_to_session := dpop s1.nanoid_to_session n,
            file_id_map := dpop s1.file_id_map n }
    | none => s1
  let dataOpt := dget s2.active_kernels sid
  let s3 := { s2 with active_kernels := dpop s2.active_kernels sid }
  match dataOpt with
  | some _ => (s3, [.bookkeepingRemoved sid, .stopCalled sid (stopFails sid)])
  | none => (s3, [.bookkeepingRemoved sid])

def cleanup_sessions (ttl now : Int) (stopFails : String → Bool) (st : KMState) :
    KMState × List CleanupEvent :=
  let to_delete := (st.active_kernels.filter (fun p => expired ttl now p.2)).map Prod.fst
  to_delete.foldl
    (fun acc sid =>
      let r := cleanup_one stopFails acc.1 sid
      (r.1, acc.2 ++ r.2))
    (st, ([] : List CleanupEvent))

/-! ## File transfer

`upload_file` and `download_file` first take `os.path.basename` of the
filename and reject an empty result with a 400 before touching the executor.
`hostDirPresent` is the truthiness of `RCE_DATA_DIR_HOST`, which selects the
shared-volume branch; `goc` is the outcome of the embedded
`get_or_create_container` call; the executor's archive primitives are given
as oracle flags. -/

structure UploadResult where
  result : Except HErr String
  executorCalls : Nat
deriving DecidableEq, Repr

def upload_file (hostDirPresent : Bool) (goc : Except HErr Handle)
    (putArchiveOk : Bool) (filename : String) : UploadResult :=
  let safe_filename := basename filename
  if safe_filename = "" then ⟨.error .badRequest, 0⟩
  else if hostDirPresent then
    match goc with
    | .error e => ⟨.error e, 1⟩
    | .ok _ => ⟨.ok safe_filename, 1⟩
  else
    match goc with
    | .error e => ⟨.error e, 1⟩
    | .ok _ =>
      if putArchiveOk then ⟨.ok safe_filename, 2⟩ else ⟨.error .internalError, 2⟩

/-- Failure channel of a download: either an `HTTPException` with a status, or
the bare `FileNotFoundError` the shared-volume branch raises (no HTTP status —
an unhandled scripting-language exception). -/
inductive DownloadErr
  | http (e : HErr)
  | fileNotFoundExc
deriving DecidableEq, Repr

structure DownloadResult where
  result : Except DownloadErr String
  executorCalls : Nat
deriving DecidableEq, Repr

def download_file (hostDirPresent : Bool) (goc : Except HErr Handle)
    (volumeFileExists : Bool) (archiveFileExists : Bool)
    (filename : String) : DownloadResult :=
  let safe_filename := basename filename
  if safe_filename = "" then ⟨.error (.http .badRequest), 0⟩
  else if hostDirPresent then
    if volumeFileExists then ⟨.ok safe_filename, 0⟩
    else ⟨.error .fileNotFoundExc, 0⟩
  else
    match goc with
    | .error e => ⟨.error (.http e), 1⟩
    | .ok _ =>
      if archiveFileExists then ⟨.ok safe_filename, 2⟩
      else ⟨.error (.http .notFoundFile), 2⟩

/-- Download endpoint `download_session_file` after id/filename resolution:
it branches on the truthiness of `RCE_DATA_DIR_INTERNAL` (which has a
non-empty default); only when that is falsy does it delegate to
`KernelManager.download_file`, whose own branch is on `RCE_DATA_DIR_HOST`.
An error of kind `DownloadErr.fileNotFoundExc` escaping this function is an
unhandled exception, surfaced by the framework as an internal server error. -/
structure EndpointDownload where
  result : Except DownloadErr Unit
  usedVolumeBranch : Bool
deriving DecidableEq, Repr

def download_session_file (internalDirPresent hostDirPresent : Bool)
    (goc : Except HErr Handle) (volumeFileExists archiveFileExists : Bool)
    (real_filename : String) : EndpointDownload :=
  if internalDirPresent then
    if volumeFileExists then ⟨.ok (), true⟩
    else ⟨.error (.http .notFoundFile), true⟩
  else
    match (download_file hostDirPresent goc volumeFileExists archiveFileExists
        real_filename).result with
    | .ok _ => ⟨.ok (), false⟩
    | .error e => ⟨.error e, false⟩

/-! ## Code execution

`execute_code` obtains a handle, then runs `_run_with_retry` (put-archive of
the temp code file plus `exec_run`); a `docker.errors.APIError` or
`docker.errors.NotFound` from that first attempt triggers one
`get_or_create_container(..., force_refresh=True)` and one further attempt.
The `finally` block always issues one `rm` of the temp file against the
current handle, swallowing its failure. -/

inductive DockerErr
  | notFound
  | apiError
  | otherExc
deriving DecidableEq, Repr

/-- Raw demuxed output of `exec_run`: optional stdout/stderr byte streams and
an exit code. -/
structure ExecResult where
  stdout : Option String
  stderr : Option String
  exit_code : Int
deriving DecidableEq, Repr

structure CodeOutput where
  stdout : String
  stderr : String
  exit_code : Int
deriving DecidableEq, Repr

/-- Result dict built by `execute_code`: decode each stream if present, else
the empty string. -/
def format_result (r : ExecResult) : CodeOutput :=
  ⟨r.stdout.getD "", r.stderr.getD "", r.exit_code⟩

/-- Executor responses consumed by one `execute_code` call: the outcome of the
i-th write-and-exec attempt, the outcome of the forced refresh, and whether
the cleanup `rm` raises. -/
structure ExecEnv where
  attempts : Nat → Except DockerErr ExecResult
  refresh : Except HErr Handle
  deleteFails : Bool

/-- Exception classes caught by the retry handler:
`except (docker.errors.APIError, docker.errors.NotFound)`. -/
def retryable : DockerErr → Bool
  | .notFound => true
  | .apiError => true
  | .otherExc => false

structure ExecTrace where
  result : Except HErr CodeOutput
  runCalls : Nat
  refreshCalls : Nat
  deletes : List Handle
  deleteFailed : Bool
deriving DecidableEq, Repr

def execute_code (init : Except HErr Handle) (env : ExecEnv) : ExecTrace :=
  match init with
  | .error e => ⟨.error e, 0, 0, [], false⟩
  | .ok container =>
    match env.attempts 0 with
    | .ok r => ⟨.ok (format_result r), 1, 0, [container], env.deleteFails⟩
    | .error e =>
      if retryable e then
        match env.refresh with
        | .error he => ⟨.error he, 1, 1, [container], env.deleteFails⟩
        | .ok refreshed =>
          match env.attempts 1 with
          | .ok r => ⟨.ok (format_result r), 2, 1, [refreshed], env.deleteFails⟩
          | .error _ => ⟨.error .internalError, 2, 1, [refreshed], env.deleteFails⟩
      else ⟨.error .internalError, 1, 0, [container], env.deleteFails⟩

/-! ## Public-id minting (from `run_code` and the upload endpoint) -/

/-- Python dict comprehension `{v: k for k, v in d.items()}`: on duplicate
values the last insertion wins, hence the reversal. -/
def invert (m : List (String × String)) : List (String × String) :=
  m.reverse.map (fun p => (p.2, p.1))

/-- Session-id minting from `run_code`: reuse `session_to_nanoid[rid]` when
present, otherwise record a freshly generated nanoid in both directions. -/
def mint_session_nanoid (st : KMState) (real_session_id : String)
    (freshId : String) : String × KMState :=
  match dget st.session_to_nanoid real_session_id with
  | some n => (n, st)
  | none =>
    (freshId,
      { st with
          session_to_nanoid := dset st.session_to_nanoid real_session_id freshId,
          nanoid_to_session := dset st.nanoid_to_session freshId real_session_id })

/-- File-id minting from `run_code`: reverse-look-up the session's
`file_id_map`; reuse the existing id for the filename, else record a fresh
one. -/
def mint_file_id (st : KMState) (nanoid_session : String) (filename : String)
    (freshId : String) : String × KMState :=
  let m := (dget st.file_id_map nanoid_session).getD []
  match dget (invert m) filename with
  | some fid => (fid, st)
  | none =>
    (freshId,
      { st with
          file_id_map := dset st.file_id_map nanoid_session (dset m freshId filename) })

/-! ## Operation sequences over the manager state -/

inductive Op
  | gocOp (session_id : String) (force_refresh : Bool) (now : Int) (o : GocOracle)
  | createOp (session_id : String) (now : Int) (createRes : Except Unit Handle)
  | executeOp (session_id : String) (now : Int) (o1 : GocOracle) (retried : Bool) (o2 : GocOracle)
  | uploadOp (session_id : String) (now : Int) (o : GocOracle)
  | downloadOp (session_id : String) (now : Int) (o : GocOracle)
  | cleanupOp (ttl now : Int) (stopFails : String → Bool)
  | recoverOp (found : List (Option String × Handle)) (now : Int)

def Op.isRecover : Op → Bool
  | .recoverOp _ _ => true
  | _ => false

/-- Registry-state effect of each core operation.  `execute`, `upload` and
`download` touch the Registry only through their embedded
`get_or_create_container` calls (one, plus the forced refresh when `execute`
retries). -/
def applyOp (maxSessions : Nat) (st : KMState) : Op → KMState
  | .gocOp sid force now o => (get_or_create_container maxSessions st sid force now o).state
  | .createOp sid now c => (start_new_container_unlocked maxSessions st sid now c).state
  | .executeOp sid now o1 retried o2 =>
    let st1 := (get_or_create_container maxSessions st sid false now o1).state
    if retried then (get_or_create_container maxSessions st1 sid true now o2).state else st1
  | .uploadOp sid now o => (get_or_create_container maxSessions st sid false now o).state
  | .downloadOp sid now o => (get_or_create_container maxSessions st sid false now o).state
  | .cleanupOp ttl now f => (cleanup_sessions ttl now f st).1
  | .recoverOp found now => recover_containers st found now

def runOps (maxSessions : Nat) (ops : List Op) (st : KMState) : KMState :=
  ops.foldl (applyOp maxSessions) st

/-! ## Further dictionary lemmas -/

theorem dget_append_none {α : Type} (a b : List (String × α)) (k : String)
    (h : dget a k = none) : dget (a ++ b) k = dget b k := by
  induction a with
  | nil => simp
  | cons p ps ih =>
    by_cases hp : p.1 = k
    · simp [dget, hp] at h
    · simp only [dget, hp, if_false, List.cons_append] at h ⊢
      simp [dget, hp, ih h]

theorem dget_append_some {α : Type} (a b : List (String × α)) (k : String) (v : α)
    (h : dget a k = some v) : dget (a ++ b) k = some v := by
  induction a with
  | nil => simp [dget] at h
  | cons p ps ih =>
    by_cases hp : p.1 = k
    · simp [dget, hp] at h ⊢
      exact h
    · simp only [dget, hp, if_false, List.cons_append] at h ⊢
      simp [dget, hp, ih h]

theorem touch_length (l : List (String × Entry)) (k : String) (t : Int) :
    (touch l k t).length = l.length := by
  induction l with
  | nil => rfl
  | cons p ps ih =>
    by_cases hp : p.1 = k <;> simp [touch, hp, ih]

theorem dget_touch_self (l : List (String × Entry)) (k : String) (t : Int)
    (e : Entry) (h : dget l k = some e) :
    dget (touch l k t) k = some ⟨e.container, t⟩ := by
  induction l with
  | nil => simp [dget] at h
  | cons p ps ih =>
    by_cases hp : p.1 = k
    · simp [dget, hp] at h
      simp [touch, dget, hp, h]
    · simp only [dget, hp, if_false] at h
      simp [touch, dget, hp, ih h]

theorem dget_isSome_of_mem {α : Type} {l : List (String × α)} {k : String} {v : α}
    (h : (k, v) ∈ l) : (dget l k).isSome := by
  induction l with
  | nil => simp at h
  | cons p ps ih =>
    rcases List.mem_cons.mp h with h1 | h2
    · simp [dget, ← h1]
    · by_cases hp : p.1 = k <;> simp [dget, hp, ih h2]

theorem invert_cons (p : String × String) (ps : List (String × String)) :
    invert (p :: ps) = invert ps ++ [(p.2, p.1)] := by
  simp [invert]

/-- Record a fresh id under a value not yet in the reverse map: the reverse map
now resolves the value to that id. -/
theorem dget_invert_dset (m : List (String × String)) (k v : String)
    (h : dget (invert m) v = none) :
    dget (invert (dset m k v)) v = some k := by
  induction m with
  | nil => simp [dset, invert, dget]
  | cons p ps ih =>
    rw [invert_cons] at h
    by_cases hp : p.1 = k
    · have h1 : dget (invert ps) v = none := by
        cases hh : dget (invert ps) v with
        | none => rfl
        | some x => rw [dget_append_some _ _ _ _ hh] at h; cases h
      simp only [dset, hp, if_true]
      rw [invert_cons]
      rw [dget_append_none _ _ _ h1]
      simp [dget]
    · have h1 : dget (invert ps) v = none := by
        cases hh : dget (invert ps) v with
        | none => rfl
        | some x => rw [dget_append_some _ _ _ _ hh] at h; cases h
      simp only [dset, hp, if_false]
      rw [invert_cons]
      exact dget_append_some _ _ _ _ (ih h1)

/-! ## Claims -/

/-- C3: whenever the live-entry count has reached the configured maximum,
`start_new_container_unlocked` for an id not in the Registry fails with the
capacity error, requests no sandbox from the executor (zero create calls), and
leaves the whole manager state unchanged. -/
theorem start_new_at_capacity_rejects (maxSessions : Nat) (st : KMState)
    (session_id : String) (now : Int) (createRes : Except Unit Handle)
    (_habsent : dget st.active_kernels session_id = none)
    (hfull : maxSessions ≤ st.active_kernels.length) :
    start_new_container_unlocked maxSessions st session_id now createRes =
      ⟨.error .capacity, st, 0, 0, 0⟩ := by
  simp [start_new_container_unlocked, hfull]

theorem start_new_at_capacity_rejects_witness :
    dget [(("a" : String), (⟨0, 0⟩ : Entry))] "b" = none ∧
    1 ≤ [(("a" : String), (⟨0, 0⟩ : Entry))].length ∧
    start_new_container_unlocked 1 ⟨[("a", ⟨0, 0⟩)], [], [], []⟩ "b" 5 (.ok 9) =
      ⟨.error .capacity, ⟨[("a", ⟨0, 0⟩)], [], [], []⟩, 0, 0, 0⟩ :=
  ⟨by decide, by decide,
    start_new_at_capacity_rejects 1 ⟨[("a", ⟨0, 0⟩)], [], [], []⟩ "b" 5 (.ok 9)
      (by decide) (by decide)⟩

/-- C5: upload and download always use exactly the base component of the
client-supplied filename (which contains no path separator); an input whose
base component is empty is rejected with the client error before any executor
interaction; in particular the base component of `../../etc/passwd` is
`passwd`. -/
theorem filename_sanitized_to_base :
    (∀ s : String, '/' ∉ (basename s).data) ∧
    (∀ (host : Bool) (goc : Except HErr Handle) (putOk : Bool) (fname r : String),
      (upload_file host goc putOk fname).result = .ok r → r = basename fname) ∧
    (∀ (host : Bool) (goc : Except HErr Handle) (v a : Bool) (fname r : String),
      (download_file host goc v a fname).result = .ok r → r = basename fname) ∧
    (∀ (host : Bool) (goc : Except HErr Handle) (putOk : Bool) (fname : String),
      basename fname = "" →
      upload_file host goc putOk fname = ⟨.error .badRequest, 0⟩) ∧
    (∀ (host : Bool) (goc : Except HErr Handle) (v a : Bool) (fname : String),
      basename fname = "" →
      download_file host goc v a fname = ⟨.error (.http .badRequest), 0⟩) ∧
    basename "../../etc/passwd" = "passwd" ∧
    basename "////" = "" := by
  refine ⟨basename_no_separator, ?_, ?_, ?_, ?_, ?_, ?_⟩
  · intro host goc putOk fname r h
    unfold upload_file at h
    by_cases he : basename fname = "" <;>
      cases goc <;> cases host <;> cases putOk <;> simp_all
  · intro host goc v a fname r h
    unfold download_file at h
    by_cases he : basename fname = "" <;>
      cases goc <;> cases host <;> cases v <;> cases a <;> simp_all
  · intro host goc putOk fname he
    simp [upload_file, he]
  · intro host goc v a fname he
    simp [download_file, he]
  · decide
  · decide

theorem filename_sanitized_to_base_witness :
    (upload_file true (.ok 0) true "passwd").result = .ok (basename "../../etc/passwd") ∧
    upload_file true (.ok 0) true "////" = ⟨.error .badRequest, 0⟩ ∧
    download_file false (.ok 0) true true "////" = ⟨.error (.http .badRequest), 0⟩ :=
  ⟨by have := filename_sanitized_to_base.2.1 true (.ok 0) true "passwd" "passwd" (by decide)
      decide,
    filename_sanitized_to_base.2.2.2.1 true (.ok 0) true "////" (by decide),
    filename_sanitized_to_base.2.2.2.2.1 false (.ok 0) true true "////" (by decide)⟩

/-- C7: when the submitted code parses and its final top-level statement is a
bare expression, `wrap_code` replaces exactly that statement by the assignment
of the expression to the hidden variable and appends the conditional print of
its representation (guarded by the value not being `None`), leaving every
earlier statement untouched; when the final statement is not a bare expression
the code passes through unchanged; and when parsing fails the code is returned
unmodified. -/
theorem wrap_code_rewrites_final_expression :
    (∀ (parse : String → Option (List PyStmt)) (unparse : List PyStmt → String)
        (code : String),
      parse code = none → wrap_code parse unparse code = code) ∧
    (∀ (parse : String → Option (List PyStmt)) (unparse : List PyStmt → String)
        (code : String) (body : List PyStmt) (v : PyExpr),
      parse code = some body → body.getLast? = some (.exprStmt v) →
      wrap_code parse unparse code =
        unparse (body.dropLast ++
          [PyStmt.assign [.name "__last_res__" .store] v,
           PyStmt.ifStmt
             (.compare (.name "__last_res__" .load) [.isNot] [.const .noneConst])
             [.exprStmt (.call (.name "print" .load)
               [.call (.name "repr" .load) [.name "__last_res__" .load]])]
             []]) ∧
      (body.dropLast ++ [assign_node v, if_print_node]).take (body.length - 1) =
        body.take (body.length - 1)) ∧
    (∀ (parse : String → Option (List PyStmt)) (unparse : List PyStmt → String)
        (code : String) (body : List PyStmt),
      parse code = some body →
      (∀ v : PyExpr, body.getLast? ≠ some (.exprStmt v)) →
      wrap_code parse unparse code = code) := by
  refine ⟨?_, ?_, ?_⟩
  · intro parse unparse code h
    simp [wrap_code, h]
  · intro parse unparse code body v hp hl
    constructor
    · simp [wrap_code, hp, hl, assign_node, if_print_node]
    · rw [List.take_append_eq_append_take, List.length_dropLast, Nat.sub_self,
        List.take_zero, List.append_nil, List.dropLast_eq_take, List.take_take,
        Nat.min_self]
  · intro parse unparse code body hp hl
    cases hlast : body.getLast? with
    | none => simp [wrap_code, hp, hlast]
    | some s =>
      cases s with
      | exprStmt v => exact absurd hlast (hl v)
      | assign t e => simp [wrap_code, hp, hlast]
      | ifStmt a b c => simp [wrap_code, hp, hlast]
      | otherStmt t => simp [wrap_code, hp, hlast]

theorem wrap_code_rewrites_final_expression_witness :
    wrap_code (fun _ => none) (fun _ => "u") "1 +" = "1 +" ∧
    wrap_code (fun _ => some [.otherStmt 0, .exprStmt (.otherExpr 1)])
        (fun l => if l.length = 3 then "wrapped" else "bad") "x; e" = "wrapped" ∧
    wrap_code (fun _ => some [.assign [.name "x" .store] (.otherExpr 0)])
        (fun _ => "u") "x = 1" = "x = 1" :=
  ⟨wrap_code_rewrites_final_expression.1 (fun _ => none) (fun _ => "u") "1 +" rfl,
    by rw [(wrap_code_rewrites_final_expression.2.1 (fun _ => some [.otherStmt 0, .exprStmt (.otherExpr 1)])
        (fun l => if l.length = 3 then "wrapped" else "bad") "x; e"
        [.otherStmt 0, .exprStmt (.otherExpr 1)] (.otherExpr 1) rfl rfl).1]
       rfl,
    wrap_code_rewrites_final_expression.2.2 (fun _ => some [.assign [.name "x" .store] (.otherExpr 0)])
      (fun _ => "u") "x = 1" [.assign [.name "x" .store] (.otherExpr 0)] rfl
      (by intro v h; cases h)⟩

/-- C9: public-id minting is idempotent — for a given internal session id
(resp. a given filename within a session) a second minting call returns the
very same public id and leaves the mapping tables unchanged, so a second id is
never minted while the session lives. -/
theorem minting_idempotent :
    (∀ (st : KMState) (rid f1 f2 : String),
      (mint_session_nanoid (mint_session_nanoid st rid f1).2 rid f2).1 =
        (mint_session_nanoid st rid f1).1 ∧
      (mint_session_nanoid (mint_session_nanoid st rid f1).2 rid f2).2 =
        (mint_session_nanoid st rid f1).2) ∧
    (∀ (st : KMState) (ns fname f1 f2 : String),
      (mint_file_id (mint_file_id st ns fname f1).2 ns fname f2).1 =
        (mint_file_id st ns fname f1).1 ∧
      (mint_file_id (mint_file_id st ns fname f1).2 ns fname f2).2 =
        (mint_file_id st ns fname f1).2) := by
  constructor
  · intro st rid f1 f2
    unfold mint_session_nanoid
    cases h : dget st.session_to_nanoid rid with
    | some n => simp [h]
    | none => simp [h, dget_dset_self]
  · intro st ns fname f1 f2
    unfold mint_file_id
    cases h : dget (invert ((dget st.file_id_map ns).getD [])) fname with
    | some fid => simp [h]
    | none =>
      simp only [h]
      have h2 : dget (dset st.file_id_map ns
          (dset ((dget st.file_id_map ns).getD []) f1 fname)) ns =
          some (dset ((dget st.file_id_map ns).getD []) f1 fname) :=
        dget_dset_self _ _ _
      simp only [h2, Option.getD_some]
      rw [dget_invert_dset _ _ _ h]
      exact ⟨rfl, rfl⟩

/-- Cache-hit branch of `get_or_create_container`: an existing entry without
`force_refresh` is returned as-is after its timestamp refresh. -/
theorem goc_cache_hit (maxSessions : Nat) (st : KMState) (sid : String)
    (now : Int) (o : GocOracle) (e : Entry)
    (h : dget st.active_kernels sid = some e) :
    get_or_create_container maxSessions st sid false now o =
      ⟨.ok e.container,
        { st with active_kernels := touch st.active_kernels sid now }, 0, 0, 0⟩ := by
  simp [get_or_create_container, h]

/-- C8: calling `get_or_create_container` twice without `force_refresh`
returns the identical handle both times; the second invocation performs no
executor call at all (no reload, no start, no create) and each call refreshes
the entry's `last_accessed` to its own current time. -/
theorem goc_optimistic_cache (maxSessions : Nat) (st : KMState) (sid : String)
    (now1 now2 : Int) (o1 o2 : GocOracle) (h : Handle)
    (hfirst : (get_or_create_container maxSessions st sid false now1 o1).result = .ok h) :
    dget (get_or_create_container maxSessions st sid false now1 o1).state.active_kernels
        sid = some ⟨h, now1⟩ ∧
    (get_or_create_container maxSessions
        (get_or_create_container maxSessions st sid false now1 o1).state
        sid false now2 o2) =
      ⟨.ok h,
        { (get_or_create_container maxSessions st sid false now1 o1).state with
            active_kernels :=
              touch (get_or_create_container maxSessions st sid false now1 o1).state.active_kernels
                sid now2 },
        0, 0, 0⟩ ∧
    dget (get_or_create_container maxSessions
        (get_or_create_container maxSessions st sid false now1 o1).state
        sid false now2 o2).state.active_kernels sid = some ⟨h, now2⟩ := by
  have hmid : dget (get_or_create_container maxSessions st sid false now1
      o1).state.active_kernels sid = some ⟨h, now1⟩ := by
    cases hh : dget st.active_kernels sid with
    | some e =>
      have hr : get_or_create_container maxSessions st sid false now1 o1 =
          ⟨.ok e.container,
            { st with active_kernels := touch st.active_kernels sid now1 }, 0, 0, 0⟩ :=
        goc_cache_hit maxSessions st sid now1 o1 e hh
      rw [hr] at hfirst
      have hcont : e.container = h := by
        simpa using hfirst
      rw [hr]
      simpa [hcont] using dget_touch_self st.active_kernels sid now1 e hh
    | none =>
      simp only [get_or_create_container, hh] at hfirst ⊢
      unfold start_new_container_unlocked at hfirst ⊢
      by_cases hc : maxSessions ≤ st.active_kernels.length
      · simp [hc] at hfirst
      · cases hcr : o1.createRes with
        | error u => simp [hc, hcr] at hfirst
        | ok h' =>
          simp only [hc, hcr, if_false] at hfirst ⊢
          have hh' : h' = h := by simpa using hfirst
          subst hh'
          simpa using dget_dset_self st.active_kernels sid ⟨h', now1⟩
  have hr2 : get_or_create_container maxSessions
      (get_or_create_container maxSessions st sid false now1 o1).state sid false now2 o2 =
      ⟨.ok h,
        { (get_or_create_container maxSessions st sid false now1 o1).state with
            active_kernels :=
              touch (get_or_create_container maxSessions st sid false now1 o1).state.active_kernels
                sid now2 },
        0, 0, 0⟩ :=
    goc_cache_hit maxSessions _ sid now2 o2 ⟨h, now1⟩ hmid
  refine ⟨hmid, hr2, ?_⟩
  rw [hr2]
  simpa using dget_touch_self _ sid now2 ⟨h, now1⟩ hmid

theorem goc_optimistic_cache_witness :
    (get_or_create_container 1 KMState.empty "s" false 3 ⟨.notFound, false, .ok 5⟩).result
      = .ok 5 ∧
    dget (get_or_create_container 1
        (get_or_create_container 1 KMState.empty "s" false 3
          ⟨.notFound, false, .ok 5⟩).state
        "s" false 4 ⟨.err, true, .error ()⟩).state.active_kernels "s" = some ⟨5, 4⟩ :=
  ⟨by decide,
    (goc_optimistic_cache 1 KMState.empty "s" 3 4 ⟨.notFound, false, .ok 5⟩
      ⟨.err, true, .error ()⟩ 5 (by decide)).2.2⟩

/-- C1: a "not found" or "transient API" failure of the first write-and-exec
attempt makes `execute_code` force-refresh the handle exactly once and repeat
the attempt exactly once against the refreshed handle, returning that second
attempt's result and cleaning up on the refreshed handle; a second such
failure is fatal (internal error, still only two attempts); any other kind of
first-attempt error triggers no refresh and no retry. -/
theorem execute_retries_once :
    (∀ (h h2 : Handle) (env : ExecEnv) (e : DockerErr) (r : ExecResult),
      env.attempts 0 = .error e → retryable e = true →
      env.refresh = .ok h2 → env.attempts 1 = .ok r →
      execute_code (.ok h) env =
        ⟨.ok (format_result r), 2, 1, [h2], env.deleteFails⟩) ∧
    (∀ (h h2 : Handle) (env : ExecEnv) (e e2 : DockerErr),
      env.attempts 0 = .error e → retryable e = true →
      env.refresh = .ok h2 → env.attempts 1 = .error e2 →
      execute_code (.ok h) env =
        ⟨.error .internalError, 2, 1, [h2], env.deleteFails⟩) ∧
    (∀ (h : Handle) (env : ExecEnv) (e : DockerErr),
      env.attempts 0 = .error e → retryable e = false →
      execute_code (.ok h) env =
        ⟨.error .internalError, 1, 0, [h], env.deleteFails⟩) := by
  refine ⟨?_, ?_, ?_⟩ <;> intros <;> simp [execute_code, *]

theorem execute_retries_once_witness :
    execute_code (.ok 3)
      ⟨fun n => if n = 0 then .error .notFound else .ok ⟨some "4", none, 0⟩,
        .ok 7, false⟩ =
      ⟨.ok ⟨"4", "", 0⟩, 2, 1, [7], false⟩ :=
  execute_retries_once.1 3 7
    ⟨fun n => if n = 0 then .error .notFound else .ok ⟨some "4", none, 0⟩, .ok 7, false⟩
    .notFound ⟨some "4", none, 0⟩ rfl rfl rfl rfl

/-- C2: once a handle has been obtained, every exit path of `execute_code`
issues exactly one best-effort delete of the temporary code file, against the
handle last used (the refreshed handle when a retry handle was obtained,
otherwise the original); the delete's own failure is recorded but swallowed
and alters neither the primary result nor which delete was issued. -/
theorem execute_cleanup_always_runs (h : Handle) (env : ExecEnv) (b : Bool) :
    (execute_code (.ok h) env).deletes.length = 1 ∧
    (execute_code (.ok h) env).deleteFailed = env.deleteFails ∧
    (execute_code (.ok h) { env with deleteFails := b }).result =
      (execute_code (.ok h) env).result ∧
    (execute_code (.ok h) { env with deleteFails := b }).deletes =
      (execute_code (.ok h) env).deletes ∧
    (match env.attempts 0 with
     | .ok _ => (execute_code (.ok h) env).deletes = [h]
     | .error e =>
       if retryable e then
         match env.refresh with
         | .ok h2 => (execute_code (.ok h) env).deletes = [h2]
         | .error _ => (execute_code (.ok h) env).deletes = [h]
       else (execute_code (.ok h) env).deletes = [h]) := by
  cases ha : env.attempts 0 with
  | ok r => simp [execute_code, ha]
  | error e =>
    by_cases he : retryable e
    · cases hr : env.refresh with
      | error he2 => simp [execute_code, ha, he, hr]
      | ok h2 =>
        cases ha1 : env.attempts 1 with
        | ok r => simp [execute_code, ha, he, hr, ha1]
        | error e2 => simp [execute_code, ha, he, hr, ha1]
    · simp [execute_code, ha, he]

/-! ## Reaper lemmas -/

/-- Event-accumulating fold underlying `cleanup_sessions`. -/
def cleanup_fold (f : String → Bool) (K : List String) (s : KMState)
    (acc : List CleanupEvent) : KMState × List CleanupEvent :=
  K.foldl
    (fun a sid =>
      let r := cleanup_one f a.1 sid
      (r.1, a.2 ++ r.2))
    (s, acc)

/-- List `to_delete` computed under the lock by `cleanup_sessions`. -/
def reaped (ttl now : Int) (st : KMState) : List String :=
  (st.active_kernels.filter (fun p => expired ttl now p.2)).map Prod.fst

theorem cleanup_sessions_eq_fold (ttl now : Int) (f : String → Bool) (st : KMState) :
    cleanup_sessions ttl now f st = cleanup_fold f (reaped ttl now st) st [] := rfl

theorem cleanup_one_active (f : String → Bool) (s : KMState) (sid : String) :
    (cleanup_one f s sid).1.active_kernels = dpop s.active_kernels sid := by
  cases hn : dget s.session_to_nanoid sid with
  | none => cases hd : dget s.active_kernels sid <;> simp [cleanup_one, hn, hd]
  | some n =>
    by_cases hne : n = "" <;>
      cases hd : dget s.active_kernels sid <;>
        simp [cleanup_one, hn, hd, hne]

theorem cleanup_one_s2n (f : String → Bool) (s : KMState) (sid : String) :
    (cleanup_one f s sid).1.session_to_nanoid = dpop s.session_to_nanoid sid := by
  cases hn : dget s.session_to_nanoid sid with
  | none => cases hd : dget s.active_kernels sid <;> simp [cleanup_one, hn, hd]
  | some n =>
    by_cases hne : n = "" <;>
      cases hd : dget s.active_kernels sid <;>
        simp [cleanup_one, hn, hd, hne]

theorem cleanup_one_n2s (f : String → Bool) (s : KMState) (sid : String) :
    (cleanup_one f s sid).1.nanoid_to_session =
      (match dget s.session_to_nanoid sid with
       | some n =>
         if n = "" then s.nanoid_to_session else dpop s.nanoid_to_session n
       | none => s.nanoid_to_session) := by
  cases hn : dget s.session_to_nanoid sid with
  | none => cases hd : dget s.active_kernels sid <;> simp [cleanup_one, hn, hd]
  | some n =>
    by_cases hne : n = "" <;>
      cases hd : dget s.active_kernels sid <;>
        simp [cleanup_one, hn, hd, hne]

theorem cleanup_one_fim (f : String → Bool) (s : KMState) (sid : String) :
    (cleanup_one f s sid).1.file_id_map =
      (match dget s.session_to_nanoid sid with
       | some n => if n = "" then s.file_id_map else dpop s.file_id_map n
       | none => s.file_id_map) := by
  cases hn : dget s.session_to_nanoid sid with
  | none => cases hd : dget s.active_kernels sid <;> simp [cleanup_one, hn, hd]
  | some n =>
    by_cases hne : n = "" <;>
      cases hd : dget s.active_kernels sid <;>
        simp [cleanup_one, hn, hd, hne]

theorem cleanup_one_events (f : String → Bool) (s : KMState) (sid : String)
    (hd : (dget s.active_kernels sid).isSome) :
    (cleanup_one f s sid).2 =
      [.bookkeepingRemoved sid, .stopCalled sid (f sid)] := by
  cases hda : dget s.active_kernels sid with
  | none => rw [hda] at hd; cases hd
  | some e =>
    cases hn : dget s.session_to_nanoid sid with
    | none => simp [cleanup_one, hn, hda]
    | some n => by_cases hne : n = "" <;> simp [cleanup_one, hn, hda, hne]

theorem cleanup_one_state_indep (f g : String → Bool) (s : KMState) (sid : String) :
    (cleanup_one f s sid).1 = (cleanup_one g s sid).1 := by
  cases hn : dget s.session_to_nanoid sid with
  | none => cases hd : dget s.active_kernels sid <;> simp [cleanup_one, hn, hd]
  | some n =>
    by_cases hne : n = "" <;>
      cases hd : dget s.active_kernels sid <;>
        simp [cleanup_one, hn, hd, hne]

theorem cleanup_fold_active (f : String → Bool) (K : List String) (s : KMState)
    (acc : List CleanupEvent) :
    (cleanup_fold f K s acc).1.active_kernels =
      K.foldl (fun a k => dpop a k) s.active_kernels := by
  induction K generalizing s acc with
  | nil => rfl
  | cons k K ih =>
    simp only [cleanup_fold, List.foldl_cons] at ih ⊢
    rw [ih, cleanup_one_active]

theorem cleanup_fold_s2n (f : String → Bool) (K : List String) (s : KMState)
    (acc : List CleanupEvent) :
    (cleanup_fold f K s acc).1.session_to_nanoid =
      K.foldl (fun a k => dpop a k) s.session_to_nanoid := by
  induction K generalizing s acc with
  | nil => rfl
  | cons k K ih =>
    simp only [cleanup_fold, List.foldl_cons] at ih ⊢
    rw [ih, cleanup_one_s2n]

theorem foldl_dpop_eq_filter {α : Type} (K : List String) (l : List (String × α)) :
    K.foldl (fun a k => dpop a k) l = l.filter (fun p => decide (p.1 ∉ K)) := by
  induction K generalizing l with
  | nil => simp
  | cons k K ih =>
    simp only [List.foldl_cons]
    rw [ih]
    unfold dpop
    rw [List.filter_filter]
    apply List.filter_congr
    intro p _
    by_cases h1 : p.1 = k <;> by_cases h2 : p.1 ∈ K <;> simp [h1, h2]

theorem dget_none_of_foldl_dpop_none {α : Type} (K : List String)
    (l : List (String × α)) (x : String) (h : dget l x = none) :
    dget (K.foldl (fun a k => dpop a k) l) x = none := by
  induction K generalizing l with
  | nil => exact h
  | cons k K ih =>
    simp only [List.foldl_cons]
    apply ih
    by_cases hk : x = k
    · subst hk; exact dget_dpop_self l x
    · rw [dget_dpop_ne l k x hk]; exact h

theorem dget_foldl_dpop_mem {α : Type} (K : List String) (l : List (String × α))
    (x : String) (h : x ∈ K) :
    dget (K.foldl (fun a k => dpop a k) l) x = none := by
  induction K generalizing l with
  | nil => cases h
  | cons k K ih =>
    simp only [List.foldl_cons]
    rcases List.mem_cons.mp h with h1 | h2
    · subst h1
      exact dget_none_of_foldl_dpop_none K (dpop l x) x (dget_dpop_self l x)
    · exact ih (dpop l k) h2

theorem dget_foldl_dpop_not_mem {α : Type} (K : List String) (l : List (String × α))
    (x : String) (h : x ∉ K) :
    dget (K.foldl (fun a k => dpop a k) l) x = dget l x := by
  induction K generalizing l with
  | nil => rfl
  | cons k K ih =>
    simp only [List.foldl_cons]
    have hx : x ≠ k := fun hh => h (hh ▸ List.mem_cons_self k K)
    rw [ih _ (fun hh => h (List.mem_cons_of_mem k hh)), dget_dpop_ne l k x hx]

theorem cleanup_fold_n2s_none (f : String → Bool) (K : List String) (s : KMState)
    (acc : List CleanupEvent) (x : String) (h : dget s.nanoid_to_session x = none) :
    dget (cleanup_fold f K s acc).1.nanoid_to_session x = none := by
  induction K generalizing s acc with
  | nil => exact h
  | cons k K ih =>
    simp only [cleanup_fold, List.foldl_cons] at ih ⊢
    apply ih
    rw [cleanup_one_n2s]
    cases hn : dget s.session_to_nanoid k with
    | none => exact h
    | some n =>
      by_cases hne : n = ""
      · simpa [hne] using h
      · by_cases hx : x = n
        · subst hx
          simpa [hne] using dget_dpop_self s.nanoid_to_session x
        · simpa [hne, dget_dpop_ne s.nanoid_to_session n x hx] using h

theorem cleanup_fold_fim_none (f : String → Bool) (K : List String) (s : KMState)
    (acc : List CleanupEvent) (x : String) (h : dget s.file_id_map x = none) :
    dget (cleanup_fold f K s acc).1.file_id_map x = none := by
  induction K generalizing s acc with
  | nil => exact h
  | cons k K ih =>
    simp only [cleanup_fold, List.foldl_cons] at ih ⊢
    apply ih
    rw [cleanup_one_fim]
    cases hn : dget s.session_to_nanoid k with
    | none => exact h
    | some n =>
      by_cases hne : n = ""
      · simpa [hne] using h
      · by_cases hx : x = n
        · subst hx
          simpa [hne] using dget_dpop_self s.file_id_map x
        · simpa [hne, dget_dpop_ne s.file_id_map n x hx] using h

theorem cleanup_fold_mapping_removed (f : String → Bool) :
    ∀ (K : List String), K.Nodup →
    ∀ (s : KMState) (acc : List CleanupEvent) (sid n : String),
      sid ∈ K → dget s.session_to_nanoid sid = some n → n ≠ "" →
      dget (cleanup_fold f K s acc).1.nanoid_to_session n = none ∧
      dget (cleanup_fold f K s acc).1.file_id_map n = none := by
  intro K
  induction K with
  | nil =>
    intro _ s acc sid n hmem _ _
    cases hmem
  | cons k K ih =>
    intro hnd s acc sid n hmem hn hntruthy
    rcases List.mem_cons.mp hmem with h1 | h2
    · subst h1
      simp only [cleanup_fold, List.foldl_cons]
      constructor
      · apply cleanup_fold_n2s_none
        rw [cleanup_one_n2s, hn]
        simpa [hntruthy] using dget_dpop_self s.nanoid_to_session n
      · apply cleanup_fold_fim_none
        rw [cleanup_one_fim, hn]
        simpa [hntruthy] using dget_dpop_self s.file_id_map n
    · have hne : sid ≠ k := by
        intro hh
        subst hh
        exact (List.nodup_cons.mp hnd).1 h2
      simp only [cleanup_fold, List.foldl_cons]
      have hn' : dget (cleanup_one f s k).1.session_to_nanoid sid = some n := by
        rw [cleanup_one_s2n, dget_dpop_ne _ k sid hne]
        exact hn
      exact ih (List.nodup_cons.mp hnd).2 _ _ _ _ h2 hn' hntruthy

theorem cleanup_fold_events (f : String → Bool) (K : List String) (s : KMState)
    (acc : List CleanupEvent) (hnd : K.Nodup)
    (hK : ∀ sid ∈ K, (dget s.active_kernels sid).isSome) :
    (cleanup_fold f K s acc).2 =
      acc ++ K.flatMap
        (fun sid => [.bookkeepingRemoved sid, .stopCalled sid (f sid)]) := by
  induction K generalizing s acc with
  | nil => simp [cleanup_fold]
  | cons k K ih =>
    simp only [cleanup_fold, List.foldl_cons] at ih ⊢
    rw [ih _ _ (List.nodup_cons.mp hnd).2]
    · rw [cleanup_one_events f s k (hK k (List.mem_cons_self k K))]
      simp
    · intro sid hsid
      rw [cleanup_one_active]
      have hne : sid ≠ k := by
        intro hh
        subst hh
        exact (List.nodup_cons.mp hnd).1 hsid
      rw [dget_dpop_ne _ k sid hne]
      exact hK sid (List.mem_cons_of_mem k hsid)

theorem cleanup_fold_state_indep (f g : String → Bool) (K : List String)
    (s : KMState) (acc acc' : List CleanupEvent) :
    (cleanup_fold f K s acc).1 = (cleanup_fold g K s acc').1 := by
  induction K generalizing s acc acc' with
  | nil => rfl
  | cons k K ih =>
    simp only [cleanup_fold, List.foldl_cons] at ih ⊢
    rw [cleanup_one_state_indep f g s k]
    exact ih _ _ _

theorem eq_of_mem_of_nodup_keys {α : Type} {l : List (String × α)}
    (h : (dkeys l).Nodup) {p q : String × α} (hp : p ∈ l) (hq : q ∈ l)
    (hpq : p.1 = q.1) : p = q := by
  induction l with
  | nil => cases hp
  | cons a tl ih =>
    rw [dkeys, List.map_cons] at h
    have hnd := List.nodup_cons.mp h
    rcases List.mem_cons.mp hp with hp1 | hp2 <;>
      rcases List.mem_cons.mp hq with hq1 | hq2
    · rw [hp1, hq1]
    · exfalso
      have hm : q.1 ∈ List.map Prod.fst tl := List.mem_map_of_mem Prod.fst hq2
      rw [hp1] at hpq
      rw [← hpq] at hm
      exact hnd.1 hm
    · exfalso
      have hm : p.1 ∈ List.map Prod.fst tl := List.mem_map_of_mem Prod.fst hp2
      rw [hq1] at hpq
      rw [hpq] at hm
      exact hnd.1 hm
    · exact ih hnd.2 hp2 hq2

/-- C6: with unique Registry keys, `cleanup_sessions` removes from the
Registry exactly the sessions whose idle time strictly exceeds the TTL and
removes their identity mappings (the reverse/file maps under the session's
truthy, i.e. non-empty, public nanoid — matching the `if nanoid_session:`
guard), leaving every other session's entries untouched; the final state is
identical however the executor teardowns fail (a stop failure neither
restores the reaped entry nor blocks the other removals), and the event trace
interleaves, per reaped session in order, its bookkeeping removal strictly
before its (possibly failing) stop call. -/
theorem idle_reaper_exact (ttl now : Int) (st : KMState) (stopFails : String → Bool)
    (hnodup : (dkeys st.active_kernels).Nodup) :
    (cleanup_sessions ttl now stopFails st).1.active_kernels =
      st.active_kernels.filter (fun p => !(expired ttl now p.2)) ∧
    (∀ sid, sid ∈ reaped ttl now st →
      dget (cleanup_sessions ttl now stopFails st).1.session_to_nanoid sid = none) ∧
    (∀ sid, sid ∉ reaped ttl now st →
      dget (cleanup_sessions ttl now stopFails st).1.session_to_nanoid sid =
        dget st.session_to_nanoid sid) ∧
    (∀ sid n, sid ∈ reaped ttl now st → dget st.session_to_nanoid sid = some n →
      n ≠ "" →
      dget (cleanup_sessions ttl now stopFails st).1.nanoid_to_session n = none ∧
      dget (cleanup_sessions ttl now stopFails st).1.file_id_map n = none) ∧
    (cleanup_sessions ttl now stopFails st).1 =
      (cleanup_sessions ttl now (fun _ => false) st).1 ∧
    (cleanup_sessions ttl now stopFails st).2 =
      (reaped ttl now st).flatMap
        (fun sid => [.bookkeepingRemoved sid, .stopCalled sid (stopFails sid)]) := by
  have hndK : (reaped ttl now st).Nodup := by
    have hsub : (reaped ttl now st).Sublist (dkeys st.active_kernels) :=
      List.Sublist.map Prod.fst (List.filter_sublist st.active_kernels)
    exact List.Nodup.sublist hsub hnodup
  have hK : ∀ sid ∈ reaped ttl now st, (dget st.active_kernels sid).isSome := by
    intro sid hsid
    obtain ⟨q, hqf, hq1⟩ := List.mem_map.mp hsid
    have hq := (List.mem_filter.mp hqf).1
    rw [← hq1]
    exact dget_isSome_of_mem (show (q.1, q.2) ∈ st.active_kernels by simpa using hq)
  refine ⟨?_, ?_, ?_, ?_, ?_, ?_⟩
  · rw [cleanup_sessions_eq_fold, cleanup_fold_active, foldl_dpop_eq_filter]
    apply List.filter_congr
    intro p hp
    cases he : expired ttl now p.2 with
    | true =>
      have hmem : p.1 ∈ reaped ttl now st :=
        List.mem_map_of_mem Prod.fst (List.mem_filter.mpr ⟨hp, he⟩)
      simp [hmem, he]
    | false =>
      have hmem : p.1 ∉ reaped ttl now st := by
        intro hmem
        obtain ⟨q, hqf, hq1⟩ := List.mem_map.mp hmem
        have hq := List.mem_filter.mp hqf
        have heq := eq_of_mem_of_nodup_keys hnodup hq.1 hp hq1
        rw [heq, he] at hq
        cases hq.2
      simp [hmem, he]
  · intro sid hsid
    rw [cleanup_sessions_eq_fold, cleanup_fold_s2n]
    exact dget_foldl_dpop_mem _ _ _ hsid
  · intro sid hsid
    rw [cleanup_sessions_eq_fold, cleanup_fold_s2n]
    exact dget_foldl_dpop_not_mem _ _ _ hsid
  · intro sid n hsid hn hntruthy
    rw [cleanup_sessions_eq_fold]
    exact cleanup_fold_mapping_removed stopFails _ hndK st [] sid n hsid hn hntruthy
  · rw [cleanup_sessions_eq_fold, cleanup_sessions_eq_fold]
    exact cleanup_fold_state_indep _ _ _ _ _ _
  · rw [cleanup_sessions_eq_fold, cleanup_fold_events _ _ _ _ hndK hK]
    simp

theorem idle_reaper_exact_witness :
    (cleanup_sessions 10 100 (fun _ => true)
        ⟨[("old", ⟨1, 89⟩), ("new", ⟨2, 91⟩)], [("N", "old")], [("old", "N")],
          [("N", [("fid", "f.txt")])]⟩).1.active_kernels = [("new", ⟨2, 91⟩)] ∧
    dget (cleanup_sessions 10 100 (fun _ => true)
        ⟨[("old", ⟨1, 89⟩), ("new", ⟨2, 91⟩)], [("N", "old")], [("old", "N")],
          [("N", [("fid", "f.txt")])]⟩).1.session_to_nanoid "old" = none ∧
    dget (cleanup_sessions 10 100 (fun _ => true)
        ⟨[("old", ⟨1, 89⟩), ("new", ⟨2, 91⟩)], [("N", "old")], [("old", "N")],
          [("N", [("fid", "f.txt")])]⟩).1.nanoid_to_session "N" = none ∧
    (cleanup_sessions 10 100 (fun _ => true)
        ⟨[("old", ⟨1, 89⟩), ("new", ⟨2, 91⟩)], [("N", "old")], [("old", "N")],
          [("N", [("fid", "f.txt")])]⟩).1 =
      (cleanup_sessions 10 100 (fun _ => false)
        ⟨[("old", ⟨1, 89⟩), ("new", ⟨2, 91⟩)], [("N", "old")], [("old", "N")],
          [("N", [("fid", "f.txt")])]⟩).1 ∧
    (cleanup_sessions 10 100 (fun _ => true)
        ⟨[("old", ⟨1, 89⟩), ("new", ⟨2, 91⟩)], [("N", "old")], [("old", "N")],
          [("N", [("fid", "f.txt")])]⟩).2 =
      [.bookkeepingRemoved "old", .stopCalled "old" true] :=
  ⟨((idle_reaper_exact 10 100
      ⟨[("old", ⟨1, 89⟩), ("new", ⟨2, 91⟩)], [("N", "old")], [("old", "N")],
        [("N", [("fid", "f.txt")])]⟩ (fun _ => true) (by decide)).1).trans (by decide),
    (idle_reaper_exact 10 100
      ⟨[("old", ⟨1, 89⟩), ("new", ⟨2, 91⟩)], [("N", "old")], [("old", "N")],
        [("N", [("fid", "f.txt")])]⟩ (fun _ => true) (by decide)).2.1 "old" (by decide),
    ((idle_reaper_exact 10 100
      ⟨[("old", ⟨1, 89⟩), ("new", ⟨2, 91⟩)], [("N", "old")], [("old", "N")],
        [("N", [("fid", "f.txt")])]⟩ (fun _ => true) (by decide)).2.2.2.1 "old" "N"
      (by decide) (by decide) (by decide)).1,
    (idle_reaper_exact 10 100
      ⟨[("old", ⟨1, 89⟩), ("new", ⟨2, 91⟩)], [("N", "old")], [("old", "N")],
        [("N", [("fid", "f.txt")])]⟩ (fun _ => true) (by decide)).2.2.2.2.1,
    ((idle_reaper_exact 10 100
      ⟨[("old", ⟨1, 89⟩), ("new", ⟨2, 91⟩)], [("N", "old")], [("old", "N")],
        [("N", [("fid", "f.txt")])]⟩ (fun _ => true) (by decide)).2.2.2.2.2).trans
      (by decide)⟩

/-! ## Capacity lemmas -/

theorem start_new_len (maxSessions : Nat) (st : KMState) (sid : String) (now : Int)
    (c : Except Unit Handle) (h : st.active_kernels.length ≤ maxSessions) :
    (start_new_container_unlocked maxSessions st sid now
        c).state.active_kernels.length ≤ maxSessions := by
  unfold start_new_container_unlocked
  by_cases hc : maxSessions ≤ st.active_kernels.length
  · simpa [hc] using h
  · cases c with
    | error u => simpa [hc] using h
    | ok hdl =>
      simp only [hc, if_false]
      show (dset st.active_kernels sid ⟨hdl, now⟩).length ≤ maxSessions
      have := dset_length_le st.active_kernels sid ⟨hdl, now⟩
      omega

theorem goc_len (maxSessions : Nat) (st : KMState) (sid : String) (force : Bool)
    (now : Int) (o : GocOracle) (h : st.active_kernels.length ≤ maxSessions) :
    (get_or_create_container maxSessions st sid force now
        o).state.active_kernels.length ≤ maxSessions := by
  have hpop : (dpop st.active_kernels sid).length ≤ maxSessions :=
    le_trans (dpop_length_le _ _) h
  cases hd : dget st.active_kernels sid with
  | none =>
    simp only [get_or_create_container, hd]
    exact start_new_len maxSessions st sid now o.createRes h
  | some e =>
    cases force with
    | false =>
      simp only [get_or_create_container, hd]
      simpa [touch_length] using h
    | true =>
      simp only [get_or_create_container, hd]
      cases hr : o.reload with
      | notFound =>
        simpa using start_new_len maxSessions
          { st with active_kernels := dpop st.active_kernels sid } sid now o.createRes hpop
      | err =>
        simpa using start_new_len maxSessions
          { st with active_kernels := dpop st.active_kernels sid } sid now o.createRes hpop
      | ok running =>
        cases running with
        | true => simpa [touch_length] using h
        | false =>
          cases hs : o.startFails with
          | true =>
            simpa using start_new_len maxSessions
              { st with active_kernels := dpop st.active_kernels sid } sid now o.createRes hpop
          | false => simpa [touch_length] using h

theorem cleanup_len (ttl now : Int) (f : String → Bool) (st : KMState) :
    (cleanup_sessions ttl now f st).1.active_kernels.length ≤
      st.active_kernels.length := by
  rw [cleanup_sessions_eq_fold, cleanup_fold_active, foldl_dpop_eq_filter]
  exact List.length_filter_le _ _

theorem applyOp_len (maxSessions : Nat) (st : KMState) (op : Op)
    (hop : op.isRecover = false) (h : st.active_kernels.length ≤ maxSessions) :
    (applyOp maxSessions st op).active_kernels.length ≤ maxSessions := by
  cases op with
  | gocOp sid force now o => exact goc_len maxSessions st sid force now o h
  | createOp sid now c => exact start_new_len maxSessions st sid now c h
  | executeOp sid now o1 retried o2 =>
    cases retried with
    | false =>
      simpa [applyOp] using goc_len maxSessions st sid false now o1 h
    | true =>
      simpa [applyOp] using
        goc_len maxSessions _ sid true now o2 (goc_len maxSessions st sid false now o1 h)
  | uploadOp sid now o => exact goc_len maxSessions st sid false now o h
  | downloadOp sid now o => exact goc_len maxSessions st sid false now o h
  | cleanupOp ttl now f => exact le_trans (cleanup_len ttl now f st) h
  | recoverOp found now => simp [Op.isRecover] at hop

/-- C4 counterexample: with a configured maximum of 1 session and an empty
Registry, a single `recover_containers` run that finds two externally-tagged
environments adopts both — the live-entry count (2) exceeds the maximum, so
the claimed invariant fails on sequences containing `recover`. -/
theorem capacity_bound_counterexample :
    1 < (runOps 1 [.recoverOp [(some "a", 0), (some "b", 1)] 0]
        KMState.empty).active_kernels.length := by decide

/-- C4 amended: along every sequence of core operations that does not include
`recover` (get_or_create, create, execute, upload, download, cleanup), the
number of live Registry entries never exceeds the configured maximum;
`recover` adopts externally-tagged environments without a capacity check and
can therefore exceed the bound. -/
theorem capacity_bound_without_recover (maxSessions : Nat) (ops : List Op)
    (hops : ∀ op ∈ ops, op.isRecover = false) :
    (runOps maxSessions ops KMState.empty).active_kernels.length ≤ maxSessions := by
  have hgen : ∀ (l : List Op) (s : KMState), (∀ op ∈ l, op.isRecover = false) →
      s.active_kernels.length ≤ maxSessions →
      (runOps maxSessions l s).active_kernels.length ≤ maxSessions := by
    intro l
    induction l with
    | nil =>
      intro s _ h
      exact h
    | cons op l ih =>
      intro s hl h
      simp only [runOps, List.foldl_cons] at ih ⊢
      exact ih _ (fun o ho => hl o (List.mem_cons_of_mem _ ho))
        (applyOp_len maxSessions s op (hl op (List.mem_cons_self _ _)) h)
  exact hgen ops KMState.empty hops (by simp [KMState.empty])

theorem capacity_bound_without_recover_witness :
    (runOps 1 [.gocOp "s" false 0 ⟨.notFound, false, .ok 3⟩,
        .createOp "t" 0 (.ok 4)] KMState.empty).active_kernels.length ≤ 1 :=
  capacity_bound_without_recover 1
    [.gocOp "s" false 0 ⟨.notFound, false, .ok 3⟩, .createOp "t" 0 (.ok 4)]
    (by
      intro op hop
      cases hop with
      | head => rfl
      | tail _ h2 =>
        cases h2 with
        | head => rfl
        | tail _ h3 => cases h3)

/-- C10 counterexample: with the shared-volume internal path configured (its
default) but the host path absent, the endpoint still serves from the
shared-volume branch — the storage mode is selected by the internal path, not
by the host path as claimed; moreover `KernelManager.download_file` in its
shared-volume branch raises a bare `FileNotFoundError` for an absent file,
which is not the client-visible HTTP not-found. -/
theorem download_mode_counterexample :
    (download_session_file true false (.ok 0) false false "f.txt").usedVolumeBranch
      = true ∧
    (download_file true (.ok 0) false false "f.txt").result =
      .error .fileNotFoundExc ∧
    DownloadErr.fileNotFoundExc ≠ DownloadErr.http .notFoundFile := by
  decide

/-- C10 amended: through the download endpoint, a download of an absent file
yields the client-visible HTTP not-found (never a fatal error) whenever the
internal shared-volume path is configured (its non-empty default) or no host
path is set — covering both storage modes as normally configured — but the
endpoint selects its storage branch by the presence of the internal path, not
the host path. -/
theorem download_absent_not_found (internal host : Bool) (h : Handle)
    (fname : String) (hmode : internal = true ∨ host = false)
    (hname : basename fname ≠ "") :
    (download_session_file internal host (.ok h) false false fname).result =
      .error (.http .notFoundFile) ∧
    (download_session_file internal host (.ok h) false false fname).usedVolumeBranch =
      internal := by
  cases internal with
  | true => exact ⟨rfl, rfl⟩
  | false =>
    rcases hmode with hi | hh
    · cases hi
    · subst hh
      simp [download_session_file, download_file, hname]

theorem download_absent_not_found_witness :
    (download_session_file true true (.ok 2) false false "data.csv").result =
      .error (.http .notFoundFile) ∧
    (download_session_file true true (.ok 2) false false "data.csv").usedVolumeBranch =
      true :=
  download_absent_not_found true true 2 "data.csv" (Or.inl rfl) (by decide)

end Spec2Proof
